import Mathlib

/-!
Shallow embedding of `JsonToSQLiteConverter.py` (trustyai-testing-images,
llm-d-inference-sim-custom-dataset): a batch converter that reads JSON/YAML
conversation files and turns each conversation into a row
(prompt hash, generated tokens, token count).

Python values parsed from JSON/YAML are modelled by the `Json` inductive;
Python exceptions by `PyErr` and the `Except` monad.  File-system and
database effects are modelled by an explicit effect trace.
-/

/-- Parsed JSON/YAML documents and Python values flowing through the
pipeline.  Numbers are restricted to integers (no claim involves floats). -/
inductive Json where
  | str : String → Json
  | num : Int → Json
  | bool : Bool → Json
  | null : Json
  | arr : List Json → Json
  | obj : List (String × Json) → Json

/-- Python exceptions that the converter can raise. -/
inductive PyErr where
  | typeError : String → PyErr
  | keyError : String → PyErr
  | indexError : String → PyErr
  | attributeError : String → PyErr
  | valueError : String → PyErr
  | exception : String → PyErr
deriving DecidableEq

/-- `d.get(k)` on a parsed mapping (keys are unique after parsing). -/
def dictGet (d : List (String × Json)) (k : String) : Option Json :=
  (d.find? (fun kv => kv.fst == k)).map Prod.snd

/-- `k in d` on a parsed mapping. -/
def hasKey (d : List (String × Json)) (k : String) : Bool :=
  d.any (fun kv => kv.fst == k)

mutual
/-- Python `repr` of a parsed value (escape sequences inside string
literals are not modelled; no claim involves them). -/
def pyRepr : Json → String
  | .str s => "'" ++ s ++ "'"
  | .num n => toString n
  | .bool b => if b then "True" else "False"
  | .null => "None"
  | .arr l => "[" ++ pyReprArr l ++ "]"
  | .obj d => "\x7b" ++ pyReprObj d ++ "\x7d"

def pyReprArr : List Json → String
  | [] => ""
  | [x] => pyRepr x
  | x :: y :: rest => pyRepr x ++ ", " ++ pyReprArr (y :: rest)

def pyReprObj : List (String × Json) → String
  | [] => ""
  | [kv] => "'" ++ kv.fst ++ "': " ++ pyRepr kv.snd
  | kv :: p :: rest => "'" ++ kv.fst ++ "': " ++ pyRepr kv.snd ++ ", " ++ pyReprObj (p :: rest)
end

/-- Python `str()` of a parsed value, as used by the prompt f-strings. -/
def pyStrOf : Json → String
  | .str s => s
  | j => pyRepr j

/-- Whitespace characters recognised by `str.strip()` / `str.split()`
(the ASCII subset; no claim involves non-ASCII whitespace). -/
def isPySpace (c : Char) : Bool :=
  c == ' ' || c == '\t' || c == '\n' || c == '\x0d' || c == '\x0b' || c == '\x0c'

def notWs (c : Char) : Bool := !isPySpace c

/-- `s.strip()` on a list of characters: drop whitespace from both ends. -/
def stripChars (l : List Char) : List Char :=
  ((l.dropWhile isPySpace).reverse.dropWhile isPySpace).reverse

/-- Python `s.strip()`. -/
def pyStrip (s : String) : String := String.mk (stripChars s.data)

theorem length_dropWhile_le {α : Type} (p : α → Bool) (l : List α) :
    (l.dropWhile p).length ≤ l.length := by
  induction l with
  | nil => simp [List.dropWhile]
  | cons c cs ih =>
    rw [List.dropWhile_cons]
    split
    · exact Nat.le_succ_of_le ih
    · exact Nat.le_refl _

/-- `s.split()` on a list of characters, scanning with an accumulator
holding the current (reversed) token: maximal runs of non-whitespace. -/
def splitAcc : List Char → List Char → List (List Char)
  | [], [] => []
  | [], acc => [acc.reverse]
  | c :: cs, acc =>
    if isPySpace c then
      match acc with
      | [] => splitAcc cs []
      | _ => acc.reverse :: splitAcc cs []
    else splitAcc cs (c :: acc)

/-- `s.split()` on a list of characters via `takeWhile`/`dropWhile`;
proved equal to `splitAcc · []` below and used for reasoning. -/
def splitChars : List Char → List (List Char)
  | [] => []
  | c :: cs =>
    if isPySpace c then splitChars cs
    else (c :: cs.takeWhile notWs) :: splitChars (cs.dropWhile notWs)
termination_by l => l.length
decreasing_by
  · simp only [List.length_cons]; omega
  · simp only [List.length_cons]
    have := length_dropWhile_le notWs cs
    omega

/-- Python `s.split()` (no separator: split on whitespace runs,
discarding empty fragments). -/
def pySplit (s : String) : List String :=
  (splitAcc s.data []).map String.mk

/-! ### SHA-256 (`hashlib.sha256(text.encode()).digest()`)
Implemented over `Nat` bytes/words with explicit reduction mod 2^32. -/

/-- Truncate to a 32-bit word. -/
def w32 (x : Nat) : Nat := x % 4294967296

/-- Right rotation of a 32-bit word. -/
def rotr (x n : Nat) : Nat := w32 ((x >>> n) ||| (x <<< (32 - n)))

/-- UTF-8 encoding of one character, as `str.encode()` produces. -/
def utf8EncodeCharNat (c : Char) : List Nat :=
  let v := c.toNat
  if v < 128 then [v]
  else if v < 2048 then [192 + v / 64, 128 + v % 64]
  else if v < 65536 then [224 + v / 4096, 128 + v / 64 % 64, 128 + v % 64]
  else [240 + v / 262144, 128 + v / 4096 % 64, 128 + v / 64 % 64, 128 + v % 64]

/-- UTF-8 bytes of a string (`text.encode()`). -/
def utf8Bytes (s : String) : List Nat :=
  s.data.flatMap utf8EncodeCharNat

/-- The 64 SHA-256 round constants. -/
def sha256K : List Nat :=
  [1116352408, 1899447441, 3049323471, 3921009573,
   961987163, 1508970993, 2453635748, 2870763221,
   3624381080, 310598401, 607225278, 1426881987,
   1925078388, 2162078206, 2614888103, 3248222580,
   3835390401, 4022224774, 264347078, 604807628,
   770255983, 1249150122, 1555081692, 1996064986,
   2554220882, 2821834349, 2952996808, 3210313671,
   3336571891, 3584528711, 113926993, 338241895,
   666307205, 773529912, 1294757372, 1396182291,
   1695183700, 1986661051, 2177026350, 2456956037,
   2730485921, 2820302411, 3259730800, 3345764771,
   3516065817, 3600352804, 4094571909, 275423344,
   430227734, 506948616, 659060556, 883997877,
   958139571, 1322822218, 1537002063, 1747873779,
   1955562222, 2024104815, 2227730452, 2361852424,
   2428436474, 2756734187, 3204031479, 3329325298]

/-- The initial SHA-256 hash state. -/
def sha256H0 : List Nat :=
  [1779033703, 3144134277, 1013904242, 2773480762,
   1359893119, 2600822924, 528734635, 1541459225]

/-- SHA-256 padding: 0x80, zeros to 56 mod 64, then the bit length as
eight big-endian bytes. -/
def sha256Pad (msg : List Nat) : List Nat :=
  let L := msg.length
  let k := (64 + 56 - (L + 1) % 64) % 64
  let bitLen := 8 * L
  msg ++ [128] ++ List.replicate k 0 ++
    [bitLen >>> 56 &&& 255, bitLen >>> 48 &&& 255, bitLen >>> 40 &&& 255,
     bitLen >>> 32 &&& 255, bitLen >>> 24 &&& 255, bitLen >>> 16 &&& 255,
     bitLen >>> 8 &&& 255, bitLen &&& 255]

/-- Big-endian bytes to 32-bit words. -/
def bytesToWords : List Nat → List Nat
  | b0 :: b1 :: b2 :: b3 :: rest =>
    ((b0 <<< 24) ||| (b1 <<< 16) ||| (b2 <<< 8) ||| b3) :: bytesToWords rest
  | _ => []

/-- Extend 16 words to the 64-word message schedule. -/
def sha256Schedule (w16 : List Nat) : List Nat :=
  (List.range 48).foldl
    (fun w _ =>
      let n := w.length
      let s0 := rotr (w.getD (n - 15) 0) 7 ^^^ rotr (w.getD (n - 15) 0) 18 ^^^ (w.getD (n - 15) 0 >>> 3)
      let s1 := rotr (w.getD (n - 2) 0) 17 ^^^ rotr (w.getD (n - 2) 0) 19 ^^^ (w.getD (n - 2) 0 >>> 10)
      w ++ [w32 (w.getD (n - 16) 0 + s0 + w.getD (n - 7) 0 + s1)])
    w16

/-- One SHA-256 compression round. -/
def sha256Round (st : List Nat) (kw : Nat × Nat) : List Nat :=
  match st with
  | [a, b, c, d, e, f, g, hh] =>
    let S1 := rotr e 6 ^^^ rotr e 11 ^^^ rotr e 25
    let ch := (e &&& f) ^^^ ((e ^^^ 4294967295) &&& g)
    let temp1 := w32 (hh + S1 + ch + kw.fst + kw.snd)
    let S0 := rotr a 2 ^^^ rotr a 13 ^^^ rotr a 22
    let maj := (a &&& b) ^^^ (a &&& c) ^^^ (b &&& c)
    let temp2 := w32 (S0 + maj)
    [w32 (temp1 + temp2), a, b, c, w32 (d + temp1), e, f, g]
  | st => st

/-- Compress one 64-byte block into the hash state. -/
def sha256Compress (h : List Nat) (block : List Nat) : List Nat :=
  let w := sha256Schedule (bytesToWords block)
  let fin := (sha256K.zip w).foldl sha256Round h
  List.zipWith (fun x y => w32 (x + y)) h fin

/-- Take `n` chunks of 64 bytes. -/
def chunksN : Nat → List Nat → List (List Nat)
  | 0, _ => []
  | n + 1, l => l.take 64 :: chunksN n (l.drop 64)

/-- Split into 64-byte chunks (only applied to padded input, whose
length is a multiple of 64). -/
def chunks64 (l : List Nat) : List (List Nat) :=
  chunksN (l.length / 64) l

/-- SHA-256 digest (32 bytes) of a byte sequence. -/
def sha256Bytes (msg : List Nat) : List Nat :=
  let final := ((chunks64 (sha256Pad msg)).foldl sha256Compress sha256H0)
  final.flatMap (fun wd => [wd >>> 24 &&& 255, wd >>> 16 &&& 255, wd >>> 8 &&& 255, wd &&& 255])

/-- `get_prompt_hash`: SHA-256 of the UTF-8 encoding of the prompt. -/
def get_prompt_hash (full_prompt : String) : List Nat :=
  sha256Bytes (utf8Bytes full_prompt)

/-- Sanity: the well-known SHA-256 digest of the empty string. -/
theorem sha256_empty_digest :
    get_prompt_hash "" =
      [227, 176, 196, 66, 152, 252, 28, 20,
       154, 251, 244, 200, 153, 111, 185, 36,
       39, 174, 65, 228, 100, 155, 147, 76,
       164, 149, 153, 27, 120, 82, 184, 85] := by decide

/-! ### The conversation processor (`generate_full_prompt`, `process_messages`) -/

/-- A processed row as staged into the `llmd` table: prompt hash,
generated tokens, and token count. -/
structure Row where
  prompt_hash : List Nat
  gen_tokens : List String
  n_gen_tokens : Nat
deriving DecidableEq

/-- The prompt-building loop of `generate_full_prompt`, over the already
sliced `messages[:-1]`.  A non-mapping message raises `AttributeError`
at `msg.get`; a user-like or assistant message without a `content` key
raises `KeyError`. -/
def promptLoop : List Json → String → Except PyErr String
  | [], acc => .ok acc
  | msg :: rest, acc =>
    match msg with
    | .obj d =>
      match dictGet d "role" with
      | some (.str r) =>
        if r = "human" ∨ r = "user" then
          match dictGet d "content" with
          | some v => promptLoop rest (acc ++ ("### user:\n" ++ pyStrOf v ++ "\n"))
          | none => .error (.keyError "content")
        else if r = "assistant" then
          match dictGet d "content" with
          | some v => promptLoop rest (acc ++ ("### assistant:\n" ++ pyStrOf v ++ "\n"))
          | none => .error (.keyError "content")
        else promptLoop rest acc
      | _ => promptLoop rest acc
    | _ => .error (.attributeError "object has no attribute get")

/-- `generate_full_prompt(messages)`: iterate `messages[:-1]`.  Slicing a
dict raises; slicing a string yields its characters, each of which then
raises at `.get` (so only strings of length at most one pass, with an
empty prompt); other values are not sliceable. -/
def generate_full_prompt : Json → Except PyErr String
  | .arr msgs => promptLoop msgs.dropLast ""
  | .obj _ => .error (.typeError "unhashable type: slice")
  | .str s => if s.data.dropLast.isEmpty then .ok "" else .error (.attributeError "object has no attribute get")
  | _ => .error (.typeError "object is not subscriptable")

/-- `len(messages)` (lists, strings and dicts have a length). -/
def jsonLen : Json → Except PyErr Nat
  | .arr l => .ok l.length
  | .str s => .ok s.length
  | .obj d => .ok d.length
  | _ => .error (.typeError "object has no len")

/-- `messages[-1]`: last element, `IndexError` when empty. -/
def lastElem : Json → Except PyErr Json
  | .arr l =>
    match l.getLast? with
    | some x => .ok x
    | none => .error (.indexError "list index out of range")
  | .str s =>
    match s.data.getLast? with
    | some c => .ok (.str (String.mk [c]))
    | none => .error (.indexError "string index out of range")
  | .obj _ => .error (.keyError "-1")
  | _ => .error (.typeError "object is not subscriptable")

/-- `messages[-1]['content'] if messages[-1].get('role') == 'assistant'
else ""` applied to the last message. -/
def responseOf : Json → Except PyErr Json
  | .obj d =>
    match dictGet d "role" with
    | some (.str r) =>
      if r == "assistant" then
        match dictGet d "content" with
        | some v => .ok v
        | none => .error (.keyError "content")
      else .ok (.str "")
    | _ => .ok (.str "")
  | _ => .error (.attributeError "object has no attribute get")

/-- The part of `process_messages` after the empty-prompt check: hash the
prompt, read the response from the last message, split it.  A non-string
response raises at `.split()`. -/
def process_messages_tail (messages : Json) (full_prompt : String) : Except PyErr (Option Row) :=
  let prompt_hash := get_prompt_hash full_prompt
  match lastElem messages with
  | .error e => .error e
  | .ok lastMsg =>
    match responseOf lastMsg with
    | .error e => .error e
    | .ok (.str response) =>
      let gen_tokens := pySplit response
      .ok (some ⟨prompt_hash, gen_tokens, gen_tokens.length⟩)
    | .ok _ => .error (.attributeError "object has no attribute split")

/-- `process_messages(messages)`: build the prompt; on an empty or
whitespace-only prompt with more than one message return `None`
(modelled as `.ok none`); otherwise produce the row.  The `and` in
`if not full_prompt.strip() and len(messages) > 1` short-circuits, so
`len` is only evaluated when the stripped prompt is empty. -/
def process_messages (messages : Json) : Except PyErr (Option Row) :=
  match generate_full_prompt messages with
  | .error e => .error e
  | .ok full_prompt =>
    if pyStrip full_prompt = "" then
      match jsonLen messages with
      | .error e => .error e
      | .ok n =>
        if n > 1 then .ok none
        else process_messages_tail messages full_prompt
    else process_messages_tail messages full_prompt

/-! ### File loading (`process_conversation_file`) and the batch
converter (`convert_conversations_to_sqlite`) -/

/-- What parsing a file's text yields: a document, or a parse failure
(malformed JSON/YAML).  The parsers themselves are external collaborators,
so a file is modelled by its parse outcome. -/
inductive FileData where
  | doc : Json → FileData
  | parseFailure : String → FileData

/-- A directory entry: its name, its suffix (as `Path.suffix` reports it),
and its parse outcome. -/
structure SrcFile where
  name : String
  suffix : String
  data : FileData

/-- `s.lower()` (ASCII). -/
def lowerStr (s : String) : String := String.mk (s.data.map Char.toLower)

/-- Suffix dispatch of `process_conversation_file`: `.yaml` and `.json`
parse the file; any other suffix raises
`Exception(f"Unsupported file format: {file_path.suffix}")`. -/
def loadData (f : SrcFile) : Except PyErr Json :=
  if lowerStr f.suffix = ".yaml" ∨ lowerStr f.suffix = ".json" then
    match f.data with
    | .doc j => .ok j
    | .parseFailure m => .error (.exception m)
  else .error (.exception ("Unsupported file format: " ++ f.suffix))

/-- `process_conversation_file(file_path)`: load, then dispatch on the
document shape.  A list maps `process_messages` over its elements; a
mapping with both `content` and `role` keys is passed itself (not
wrapped in a list) to `process_messages`; any other mapping maps
`process_messages` over its values; anything else prints a warning and
returns `None` (modelled `.ok none`).  Exceptions propagate. -/
def process_conversation_file (f : SrcFile) : Except PyErr (Option (List (Option Row))) :=
  match loadData f with
  | .error e => .error e
  | .ok data =>
    match data with
    | .arr l => (l.mapM process_messages).map some
    | .obj d =>
      if hasKey d "content" && hasKey d "role" then
        (process_messages (.obj d)).map (fun r => some [r])
      else
        ((d.map Prod.snd).mapM process_messages).map some
    | _ => .ok none

/-- Observable effects of a run on the file system and the database. -/
inductive Effect where
  | createDb : String → Effect
  | openFile : String → Effect
  | commit : Effect
deriving DecidableEq

/-- Mutable state of the batch loop: rows staged via `session.add`, the
two counters, and the effect trace so far. -/
structure ConvState where
  staged : List Row
  processed_count : Nat
  error_count : Nat
  trace : List Effect
deriving DecidableEq

/-- Result of a run: final state plus either a clean finish or the
uncaught exception that aborted it (staged rows uncommitted). -/
structure RunResult where
  staged : List Row
  processed_count : Nat
  error_count : Nat
  trace : List Effect
  aborted : Option PyErr
deriving DecidableEq

/-- The staging loop `for result in result_dicts: ...` inside its
`try`.  A `None` result raises `TypeError` at `result['prompt_hash']`,
which the surrounding `except` catches: the returned flag records that
the exception was caught (the loop stops, later results are dropped). -/
def stageResults : List (Option Row) → ConvState → ConvState × Bool
  | [], st => (st, false)
  | some r :: rest, st =>
    stageResults rest
      { st with staged := st.staged ++ [r], processed_count := st.processed_count + 1 }
  | none :: _, st => (st, true)

/-- The per-file loop of `convert_conversations_to_sqlite`.  Exceptions
from `process_conversation_file` are not caught and abort the run; a
falsy result (`None` or an empty list) counts one error and continues;
otherwise the staging loop runs with its `except` incrementing
`error_count` once if it catches. -/
def convertLoop : ConvState → List SrcFile → RunResult
  | st, [] => ⟨st.staged, st.processed_count, st.error_count, st.trace ++ [.commit], none⟩
  | st, f :: rest =>
    let st := { st with trace := st.trace ++ [.openFile f.name] }
    match process_conversation_file f with
    | .error e => ⟨st.staged, st.processed_count, st.error_count, st.trace, some e⟩
    | .ok none => convertLoop { st with error_count := st.error_count + 1 } rest
    | .ok (some results) =>
      if results.isEmpty then convertLoop { st with error_count := st.error_count + 1 } rest
      else
        match stageResults results st with
        | (st2, true) => convertLoop { st2 with error_count := st2.error_count + 1 } rest
        | (st2, false) => convertLoop st2 rest

/-- `convert_conversations_to_sqlite(data_folder_path, db_path)`.
`create_database` runs first (creating the database file and schema),
then the directory existence check, then the per-file loop, then the
single commit.  `folderExists` stands for `Path(data_folder_path).exists()`
and `files` for the entries `data_folder.glob('*')` yields, in order. -/
def convert_conversations_to_sqlite (data_folder_path : String) (db_path : String)
    (folderExists : Bool) (files : List SrcFile) : RunResult :=
  if folderExists then
    convertLoop ⟨[], 0, 0, [.createDb db_path]⟩ files
  else
    ⟨[], 0, 0, [.createDb db_path],
      some (.valueError ("Folder " ++ data_folder_path ++ " does not exist"))⟩

/-- `main()`: any exception escaping the converter is caught and turned
into exit code 1; otherwise the exit code is 0. -/
def mainResult (data_folder_path : String) (db_path : String)
    (folderExists : Bool) (files : List SrcFile) : Nat :=
  match (convert_conversations_to_sqlite data_folder_path db_path folderExists files).aborted with
  | some _ => 1
  | none => 0

/-! ### The spec's data model: typed messages, and the spec's wording of
prompt and response derivation (for the refinement claims) -/

/-- A message of the spec's data model: a role/content pair of texts. -/
structure Message where
  role : String
  content : String
deriving DecidableEq

/-- A well-formed message as the parser delivers it. -/
def Message.toJson (m : Message) : Json :=
  .obj [("role", .str m.role), ("content", .str m.content)]

/-- A Conversation (ordered sequence of messages) as a parsed value. -/
def encodeConv (msgs : List Message) : Json :=
  .arr (msgs.map Message.toJson)

/-- Spec wording: the prompt segment one message contributes. -/
def specPromptSegment (m : Message) : String :=
  if m.role = "human" ∨ m.role = "user" then "### user:\n" ++ m.content ++ "\n"
  else if m.role = "assistant" then "### assistant:\n" ++ m.content ++ "\n"
  else ""

/-- Spec wording: in-order concatenation of the segments. -/
def concatSegments : List Message → String
  | [] => ""
  | m :: rest => specPromptSegment m ++ concatSegments rest

/-- Spec wording: the response is the last message's content when its
role is `assistant`, else empty text. -/
def specResponse (msgs : List Message) : String :=
  match msgs.getLast? with
  | some m => if m.role = "assistant" then m.content else ""
  | none => ""

/-- Spec wording: two strings are whitespace-equivalent when they carry
the same whitespace-separated tokens in the same order. -/
def wsEquivalent (a b : String) : Prop := pySplit a = pySplit b

/-- Spec wording: joining tokens with single spaces. -/
def joinTokens : List String → String
  | [] => ""
  | [t] => t
  | t :: t2 :: rest => t ++ " " ++ joinTokens (t2 :: rest)

/-! ### Concrete inputs used by the counterexamples and witnesses -/

/-- Scenario 2's input: a file holding the single mapping
`{"role": "assistant", "content": "foo bar"}`. -/
def fileSingleDict : SrcFile :=
  ⟨"a.json", ".json", .doc (.obj [("role", .str "assistant"), ("content", .str "foo bar")])⟩

/-- Scenario 1's input: one file with one two-message conversation. -/
def fileGood : SrcFile :=
  ⟨"good.json", ".json",
   .doc (.arr [encodeConv [⟨"user", "hi"⟩, ⟨"assistant", "hello world"⟩]])⟩

/-- A file with an unsupported suffix. -/
def fileTxt : SrcFile := ⟨"b.txt", ".txt", .doc .null⟩

/-- A file whose document is a bare scalar: no messages found. -/
def fileScalar : SrcFile := ⟨"s.json", ".json", .doc (.num 5)⟩

/-- A file with three conversations, the middle one tripping the
empty-prompt check (unrecognized role before an assistant turn). -/
def fileThree : SrcFile :=
  ⟨"three.json", ".json",
   .doc (.arr
     [encodeConv [⟨"user", "hi"⟩, ⟨"assistant", "ok"⟩],
      encodeConv [⟨"system", "x"⟩, ⟨"assistant", "y"⟩],
      encodeConv [⟨"user", "a"⟩, ⟨"assistant", "b c"⟩]])⟩

/-- A file holding `[[]]`: one conversation with zero messages. -/
def fileNestedEmpty : SrcFile := ⟨"e.json", ".json", .doc (.arr [.arr []])⟩

/-- The row Scenario 1's conversation produces. -/
def rowGood : Row :=
  ⟨get_prompt_hash "### user:\nhi\n", ["hello", "world"], 2⟩

example : process_conversation_file fileGood = .ok (some [some rowGood]) := by rfl
example :
    process_messages (encodeConv [⟨"system", "x"⟩, ⟨"assistant", "y"⟩]) = .ok none := by rfl
example : pySplit "  foo  bar " = ["foo", "bar"] := by rfl
example : pyStrip " \n a b\t" = "a b" := by rfl

/-! ### Properties of `split` and `strip` -/

theorem splitAcc_eq (l : List Char) : ∀ acc : List Char,
    splitAcc l acc =
      if acc = [] then splitChars l
      else (acc.reverse ++ l.takeWhile notWs) :: splitChars (l.dropWhile notWs) := by
  induction l with
  | nil =>
    intro acc
    cases acc with
    | nil => simp [splitAcc, splitChars]
    | cons a as => simp [splitAcc, splitChars]
  | cons c cs ih =>
    intro acc
    by_cases hc : isPySpace c
    · cases acc with
      | nil => simp [splitAcc, hc, ih [], splitChars]
      | cons a as =>
        simp only [splitAcc, hc, if_pos, ih []]
        simp [splitChars, hc, List.takeWhile_cons, List.dropWhile_cons, notWs]
    · cases acc with
      | nil =>
        simp only [splitAcc, hc, if_neg, ih [c]]
        simp [splitChars, hc, List.takeWhile_cons, List.dropWhile_cons, notWs]
      | cons a as =>
        simp only [splitAcc, hc, if_neg, ih (c :: a :: as)]
        simp [List.takeWhile_cons, List.dropWhile_cons, notWs, hc]

theorem splitAcc_nil_eq (l : List Char) : splitAcc l [] = splitChars l := by
  simpa using splitAcc_eq l []

theorem splitChars_all_ws (l : List Char) (h : ∀ c ∈ l, isPySpace c = true) :
    splitChars l = [] := by
  induction l with
  | nil => simp [splitChars]
  | cons c cs ih =>
    have hc : isPySpace c = true := h c (by simp)
    rw [splitChars]
    simp only [hc, if_true]
    exact ih (fun x hx => h x (by simp [hx]))

theorem splitChars_tokens (l : List Char) :
    ∀ t ∈ splitChars l, t ≠ [] ∧ ∀ c ∈ t, notWs c = true := by
  induction l using splitChars.induct with
  | case1 => simp [splitChars]
  | case2 c cs hc ih =>
    rw [splitChars]
    simp only [hc, if_true]
    exact ih
  | case3 c cs hc ih =>
    rw [splitChars]
    simp only [hc, if_false]
    intro t ht
    rcases List.mem_cons.mp ht with h1 | h2
    · subst h1
      refine ⟨by simp, ?_⟩
      intro x hx
      rcases List.mem_cons.mp hx with h3 | h4
      · subst h3; simp [notWs, hc]
      · exact List.mem_takeWhile_imp h4
    · exact ih t h2

theorem takeWhile_append_of_all {α : Type} (p : α → Bool) (cs r : List α)
    (h : ∀ c ∈ cs, p c = true) :
    (cs ++ r).takeWhile p = cs ++ r.takeWhile p := by
  induction cs with
  | nil => simp
  | cons c cs ih =>
    have hc : p c = true := h c (by simp)
    simp only [List.cons_append, List.takeWhile_cons, hc, if_true]
    rw [ih (fun x hx => h x (by simp [hx]))]

theorem dropWhile_append_of_all {α : Type} (p : α → Bool) (cs r : List α)
    (h : ∀ c ∈ cs, p c = true) :
    (cs ++ r).dropWhile p = r.dropWhile p := by
  induction cs with
  | nil => simp
  | cons c cs ih =>
    have hc : p c = true := h c (by simp)
    simp only [List.cons_append, List.dropWhile_cons, hc, if_true]
    exact ih (fun x hx => h x (by simp [hx]))

theorem takeWhile_append_ws (cs r : List Char) (h : ∀ c ∈ r, isPySpace c = true) :
    (cs ++ r).takeWhile notWs = cs.takeWhile notWs := by
  induction cs with
  | nil =>
    cases r with
    | nil => simp
    | cons c rs =>
      have hc := h c (by simp)
      simp [List.takeWhile_cons, notWs, hc]
  | cons c cs ih =>
    simp only [List.cons_append, List.takeWhile_cons]
    by_cases hc : notWs c
    · simp [hc, ih]
    · simp [hc]

theorem dropWhile_append_ws (cs r : List Char) (h : ∀ c ∈ r, isPySpace c = true) :
    (cs ++ r).dropWhile notWs = cs.dropWhile notWs ++ r := by
  induction cs with
  | nil =>
    cases r with
    | nil => simp
    | cons c rs =>
      have hc := h c (by simp)
      simp [List.dropWhile_cons, notWs, hc]
  | cons c cs ih =>
    simp only [List.cons_append, List.dropWhile_cons]
    by_cases hc : notWs c
    · simp [hc, ih]
    · simp [hc]

theorem splitChars_append_ws (l r : List Char) (h : ∀ c ∈ r, isPySpace c = true) :
    splitChars (l ++ r) = splitChars l := by
  induction l using splitChars.induct with
  | case1 => simp [splitChars_all_ws r h, splitChars]
  | case2 c cs hc ih =>
    rw [List.cons_append, splitChars, splitChars, if_pos hc, if_pos hc]
    exact ih
  | case3 c cs hc ih =>
    rw [List.cons_append, splitChars, splitChars, if_neg hc, if_neg hc]
    rw [takeWhile_append_ws cs r h, dropWhile_append_ws cs r h, ih]

theorem splitChars_dropWhile_ws (l : List Char) :
    splitChars (l.dropWhile isPySpace) = splitChars l := by
  induction l with
  | nil => simp
  | cons c cs ih =>
    by_cases hc : isPySpace c
    · rw [List.dropWhile_cons, if_pos hc, ih, splitChars, if_pos hc]
    · rw [List.dropWhile_cons, if_neg hc]

theorem mem_of_reverse_takeWhile (p : Char → Bool) (l : List Char) :
    ∀ c ∈ (l.takeWhile p).reverse, p c = true := by
  intro c hc
  exact List.mem_takeWhile_imp (List.mem_reverse.mp hc)

theorem stripChars_decomp (l : List Char) :
    l.dropWhile isPySpace =
      stripChars l ++ ((l.dropWhile isPySpace).reverse.takeWhile isPySpace).reverse := by
  unfold stripChars
  have h := congrArg List.reverse
    (List.takeWhile_append_dropWhile isPySpace (l.dropWhile isPySpace).reverse)
  rw [List.reverse_append, List.reverse_reverse] at h
  exact h.symm

theorem splitChars_stripChars (l : List Char) :
    splitChars (stripChars l) = splitChars l := by
  have h1 : splitChars (l.dropWhile isPySpace) = splitChars l := splitChars_dropWhile_ws l
  have h2 := stripChars_decomp l
  have h3 : splitChars (l.dropWhile isPySpace) = splitChars (stripChars l) := by
    rw [h2]
    exact splitChars_append_ws _ _
      (mem_of_reverse_takeWhile isPySpace (l.dropWhile isPySpace).reverse)
  rw [← h3, h1]

theorem stripChars_eq_nil_iff (l : List Char) :
    stripChars l = [] ↔ ∀ c ∈ l, isPySpace c = true := by
  constructor
  · intro h c hc
    unfold stripChars at h
    rw [List.reverse_eq_nil_iff, List.dropWhile_eq_nil_iff] at h
    by_cases hws : isPySpace c
    · exact hws
    · exfalso
      have hmem : c ∈ l.dropWhile isPySpace := by
        have hsplit := List.takeWhile_append_dropWhile isPySpace l
        rcases (List.mem_append.mp (by rw [hsplit]; exact hc)) with h1 | h2
        · exact absurd (List.mem_takeWhile_imp h1) hws
        · exact h2
      exact hws (h c (List.mem_reverse.mpr hmem))
  · intro h
    unfold stripChars
    have : l.dropWhile isPySpace = [] :=
      List.dropWhile_eq_nil_iff.mpr (fun c hc => h c hc)
    simp [this]

/-- Character-level join with single spaces. -/
def joinChars : List (List Char) → List Char
  | [] => []
  | [t] => t
  | t :: t2 :: ts => t ++ ' ' :: joinChars (t2 :: ts)

theorem all_notWs_takeWhile (cs : List Char) (h : ∀ c ∈ cs, notWs c = true) :
    cs.takeWhile notWs = cs := by
  have h1 := takeWhile_append_of_all notWs cs [] h
  simpa using h1

theorem all_notWs_dropWhile (cs : List Char) (h : ∀ c ∈ cs, notWs c = true) :
    cs.dropWhile notWs = [] := by
  have h1 := dropWhile_append_of_all notWs cs [] h
  simpa using h1

theorem isPySpace_space : isPySpace ' ' = true := by decide

theorem splitChars_joinChars (ts : List (List Char))
    (h : ∀ t ∈ ts, t ≠ [] ∧ ∀ c ∈ t, notWs c = true) :
    splitChars (joinChars ts) = ts := by
  match ts with
  | [] => simp [joinChars, splitChars]
  | [t] =>
    obtain ⟨hne, hall⟩ := h t (by simp)
    match t, hne with
    | c :: cs, _ =>
      have hc : notWs c = true := hall c (by simp)
      have hcs : ∀ x ∈ cs, notWs x = true := fun x hx => hall x (by simp [hx])
      rw [joinChars, splitChars, if_neg (by simp [notWs] at hc; simp [hc])]
      rw [all_notWs_takeWhile cs hcs, all_notWs_dropWhile cs hcs]
      simp [splitChars]
  | t :: t2 :: ts' =>
    obtain ⟨hne, hall⟩ := h t (by simp)
    match t, hne with
    | c :: cs, _ =>
      have hc : notWs c = true := hall c (by simp)
      have hcs : ∀ x ∈ cs, notWs x = true := fun x hx => hall x (by simp [hx])
      rw [joinChars, List.cons_append, splitChars, if_neg (by simp [notWs] at hc; simp [hc])]
      rw [takeWhile_append_of_all notWs cs _ hcs, dropWhile_append_of_all notWs cs _ hcs]
      rw [List.takeWhile_cons, List.dropWhile_cons]
      simp only [notWs, isPySpace_space, Bool.not_true, Bool.false_eq_true, if_false,
        List.append_nil]
      rw [splitChars, if_pos isPySpace_space]
      rw [splitChars_joinChars (t2 :: ts') (fun x hx => h x (by simp [hx]))]

theorem joinTokens_data : (ts : List (List Char)) →
    (joinTokens (ts.map String.mk)).data = joinChars ts
  | [] => rfl
  | [t] => rfl
  | t :: t2 :: r => by
    show (String.mk t ++ " " ++ joinTokens (String.mk t2 :: r.map String.mk)).data
        = t ++ ' ' :: joinChars (t2 :: r)
    have ih := joinTokens_data (t2 :: r)
    simp only [List.map_cons] at ih
    simp only [String.data_append, ih]
    simp [List.append_assoc]

theorem pySplit_eq (s : String) : pySplit s = (splitChars s.data).map String.mk := by
  unfold pySplit
  rw [splitAcc_nil_eq]

theorem string_mk_ne_empty (t : List Char) (h : t ≠ []) : String.mk t ≠ "" := by
  intro hmk
  have : t = [] := by
    have h2 : (String.mk t).data = ("" : String).data := by rw [hmk]
    simpa using h2
  exact h this

theorem pySplit_tokens_nonempty (s : String) : ∀ t ∈ pySplit s, t ≠ "" := by
  intro t ht
  rw [pySplit_eq] at ht
  obtain ⟨t', ht', rfl⟩ := List.mem_map.mp ht
  exact string_mk_ne_empty t' (splitChars_tokens s.data t' ht').1

theorem pySplit_pyStrip (s : String) : pySplit (pyStrip s) = pySplit s := by
  rw [pySplit_eq, pySplit_eq]
  show (splitChars (stripChars s.data)).map String.mk = _
  rw [splitChars_stripChars s.data]

theorem pySplit_joinTokens (s : String) :
    pySplit (joinTokens (pySplit s)) = pySplit s := by
  rw [pySplit_eq, pySplit_eq]
  show (splitChars (joinTokens ((splitChars s.data).map String.mk)).data).map String.mk = _
  rw [joinTokens_data, splitChars_joinChars _ (splitChars_tokens s.data)]

theorem pyStrip_eq_empty_iff (s : String) :
    pyStrip s = "" ↔ ∀ c ∈ s.data, isPySpace c = true := by
  unfold pyStrip
  constructor
  · intro h
    have : stripChars s.data = [] := by
      have h2 : (String.mk (stripChars s.data)).data = ("" : String).data := by rw [h]
      simpa using h2
    exact (stripChars_eq_nil_iff s.data).mp this
  · intro h
    rw [(stripChars_eq_nil_iff s.data).mpr h]

/-! ### Bridge: the dynamic pipeline on well-formed typed conversations -/

theorem dictGet_toJson_role (m : Message) :
    dictGet [("role", .str m.role), ("content", .str m.content)] "role"
      = some (.str m.role) := by
  simp [dictGet, List.find?]

theorem dictGet_toJson_content (m : Message) :
    dictGet [("role", .str m.role), ("content", .str m.content)] "content"
      = some (.str m.content) := by
  simp [dictGet, List.find?]

theorem promptLoop_map (l : List Message) : ∀ acc : String,
    promptLoop (l.map Message.toJson) acc = .ok (acc ++ concatSegments l) := by
  induction l with
  | nil =>
    intro acc
    simp only [List.map_nil, promptLoop, concatSegments, String.append_empty]
  | cons m rest ih =>
    intro acc
    by_cases h1 : m.role = "human" ∨ m.role = "user"
    · simp only [List.map_cons, Message.toJson, promptLoop, dictGet_toJson_role,
        dictGet_toJson_content, if_pos h1, pyStrOf, ih]
      rw [concatSegments, specPromptSegment, if_pos h1, String.append_assoc]
    · by_cases h2 : m.role = "assistant"
      · simp only [List.map_cons, Message.toJson, promptLoop, dictGet_toJson_role,
          dictGet_toJson_content, if_neg h1, if_pos h2, pyStrOf, ih]
        rw [concatSegments, specPromptSegment, if_neg h1, if_pos h2, String.append_assoc]
      · simp only [List.map_cons, Message.toJson, promptLoop, dictGet_toJson_role,
          dictGet_toJson_content, if_neg h1, if_neg h2, ih]
        rw [concatSegments, specPromptSegment, if_neg h1, if_neg h2, String.empty_append]

theorem gen_encode (msgs : List Message) :
    generate_full_prompt (encodeConv msgs) = .ok (concatSegments msgs.dropLast) := by
  show promptLoop (msgs.map Message.toJson).dropLast "" = _
  rw [← List.map_dropLast, promptLoop_map msgs.dropLast ""]
  rw [String.empty_append]

theorem responseOf_toJson (m : Message) :
    responseOf (Message.toJson m) =
      .ok (.str (if m.role = "assistant" then m.content else "")) := by
  by_cases h : m.role = "assistant"
  · simp only [Message.toJson, responseOf, dictGet_toJson_role, dictGet_toJson_content,
      if_pos h]
    rw [if_pos]
    exact beq_iff_eq.mpr h
  · simp only [Message.toJson, responseOf, dictGet_toJson_role, if_neg h]
    rw [if_neg]
    simp [h]

theorem lastElem_encode (msgs : List Message) (m : Message) (h : msgs.getLast? = some m) :
    lastElem (encodeConv msgs) = .ok (Message.toJson m) := by
  show lastElem (.arr (msgs.map Message.toJson)) = _
  rw [lastElem]
  rw [List.getLast?_map, h]
  rfl

theorem tail_encode (msgs : List Message) (m : Message) (h : msgs.getLast? = some m)
    (fp : String) :
    process_messages_tail (encodeConv msgs) fp =
      .ok (some ⟨get_prompt_hash fp, pySplit (specResponse msgs),
                 (pySplit (specResponse msgs)).length⟩) := by
  have hr : specResponse msgs = if m.role = "assistant" then m.content else "" := by
    rw [specResponse, h]
  rw [hr]
  simp only [process_messages_tail, lastElem_encode msgs m h, responseOf_toJson]

theorem jsonLen_encode (msgs : List Message) :
    jsonLen (encodeConv msgs) = .ok msgs.length := by
  simp [jsonLen, encodeConv]

/-- `process_messages` on a well-formed nonempty conversation: `None`
exactly when the stripped prompt is empty and there is more than one
message; otherwise the row with the prompt hash and the split response. -/
theorem processMessages_encode (msgs : List Message) (h : msgs ≠ []) :
    process_messages (encodeConv msgs) =
      if pyStrip (concatSegments msgs.dropLast) = "" ∧ msgs.length > 1 then .ok none
      else .ok (some ⟨get_prompt_hash (concatSegments msgs.dropLast),
                      pySplit (specResponse msgs),
                      (pySplit (specResponse msgs)).length⟩) := by
  have hex : ∃ m, msgs.getLast? = some m := by
    cases hq : msgs.getLast? with
    | none => exact absurd (List.getLast?_eq_none_iff.mp hq) h
    | some m => exact ⟨m, rfl⟩
  obtain ⟨m, hm⟩ := hex
  simp only [process_messages, gen_encode msgs]
  by_cases hp : pyStrip (concatSegments msgs.dropLast) = ""
  · rw [if_pos hp]
    simp only [jsonLen_encode]
    by_cases hn : msgs.length > 1
    · rw [if_pos hn, if_pos ⟨hp, hn⟩]
    · rw [if_neg hn, if_neg (by tauto), tail_encode msgs m hm]
  · rw [if_neg hp, if_neg (by tauto), tail_encode msgs m hm]

/-! ### Behaviour of the batch loop -/

theorem convertLoop_step_none (st : ConvState) (f : SrcFile) (rest : List SrcFile)
    (h : process_conversation_file f = .ok none) :
    convertLoop st (f :: rest) =
      convertLoop ⟨st.staged, st.processed_count, st.error_count + 1,
                   st.trace ++ [.openFile f.name]⟩ rest := by
  simp only [convertLoop, h]

theorem convertLoop_step_empty_list (st : ConvState) (f : SrcFile) (rest : List SrcFile)
    (h : process_conversation_file f = .ok (some [])) :
    convertLoop st (f :: rest) =
      convertLoop ⟨st.staged, st.processed_count, st.error_count + 1,
                   st.trace ++ [.openFile f.name]⟩ rest := by
  simp only [convertLoop, h, List.isEmpty_nil, if_true]

theorem convertLoop_step_raise (st : ConvState) (f : SrcFile) (rest : List SrcFile)
    (e : PyErr) (h : process_conversation_file f = .error e) :
    convertLoop st (f :: rest) =
      ⟨st.staged, st.processed_count, st.error_count,
       st.trace ++ [.openFile f.name], some e⟩ := by
  simp only [convertLoop, h]

theorem stageResults_split (rs2 : List (Option Row)) (rs1 : List Row) :
    ∀ st : ConvState,
    stageResults (rs1.map some ++ none :: rs2) st =
      (⟨st.staged ++ rs1, st.processed_count + rs1.length, st.error_count, st.trace⟩, true) := by
  induction rs1 with
  | nil => intro st; simp [stageResults]
  | cons r rs1 ih =>
    intro st
    simp only [List.map_cons, List.cons_append, stageResults, List.append_eq]
    rw [ih]
    simp only [Prod.mk.injEq, ConvState.mk.injEq, List.append_assoc, List.singleton_append,
      List.length_cons, and_true, true_and]
    omega

theorem convertLoop_step_signal (rs1 : List Row) (rs2 : List (Option Row)) (st : ConvState)
    (f : SrcFile) (rest : List SrcFile)
    (h : process_conversation_file f = .ok (some (rs1.map some ++ none :: rs2))) :
    convertLoop st (f :: rest) =
      convertLoop ⟨st.staged ++ rs1, st.processed_count + rs1.length, st.error_count + 1,
                   st.trace ++ [.openFile f.name]⟩ rest := by
  have hne : (rs1.map some ++ none :: rs2).isEmpty = false := by
    cases rs1 <;> simp
  simp only [convertLoop, h, hne, Bool.false_eq_true, if_false, stageResults_split rs2 rs1]

theorem singleton_processed (m : Message) :
    process_messages (encodeConv [m]) =
      .ok (some ⟨get_prompt_hash "", pySplit (specResponse [m]),
                 (pySplit (specResponse [m])).length⟩) := by
  rw [processMessages_encode [m] (by simp), if_neg (by simp)]
  rfl

/-! ### The claims -/

/-- C1: the claim says a file holding a single mapping with `content` and
`role` keys is treated as a one-message Conversation yielding one row
with gen_tokens `["foo", "bar"]`.  The code instead passes the dict
itself (not wrapped in a list) to `process_messages`, whose slice
`messages[:-1]` raises on a dict, so the run aborts with an uncaught
exception and no row: the comment `Assume the dict itself contains
message data` shows the spec's behaviour was the intent. -/
theorem claim1_single_dict_crashes :
    process_conversation_file fileSingleDict = .error (.typeError "unhashable type: slice")
    ∧ (convert_conversations_to_sqlite "data" "out.db" true [fileSingleDict]).aborted
        = some (.typeError "unhashable type: slice")
    ∧ (convert_conversations_to_sqlite "data" "out.db" true [fileSingleDict]).staged = []
    ∧ mainResult "data" "out.db" true [fileSingleDict] = 1 :=
  ⟨rfl, rfl, rfl, rfl⟩

/-- C4 counterexample: with a nonexistent source directory the run does
abort, but the destination database has already been created (schema
applied) by `create_database`, which runs before the existence check —
refuting "no mutation of the destination database file". -/
theorem claim4_counterexample :
    (convert_conversations_to_sqlite "/missing" "out.db" false []).trace
        = [.createDb "out.db"]
    ∧ (convert_conversations_to_sqlite "/missing" "out.db" false []).aborted
        = some (.valueError "Folder /missing does not exist") :=
  ⟨rfl, rfl⟩

/-- C4 as amended: if the source directory does not exist the run fails
with `ValueError` before any source file is opened and the process exits
with code 1, but the destination database file has already been created
(with the schema) before the check. -/
theorem claim4_amended_behavior (p dbp : String) (files : List SrcFile) :
    convert_conversations_to_sqlite p dbp false files =
      ⟨[], 0, 0, [.createDb dbp], some (.valueError ("Folder " ++ p ++ " does not exist"))⟩
    ∧ mainResult p dbp false files = 1 := by
  constructor
  · rw [convert_conversations_to_sqlite, if_neg (by simp)]
  · rw [mainResult, convert_conversations_to_sqlite, if_neg (by simp)]

/-- C5: for every Conversation the derived prompt is the in-order
concatenation, over all messages except the last, of the role-labelled
segments (`### user:`/`### assistant:`; other roles contribute nothing). -/
theorem claim5_prompt_rule (msgs : List Message) :
    generate_full_prompt (encodeConv msgs) = .ok (concatSegments msgs.dropLast) :=
  gen_encode msgs

/-- C8: round trip — joining the computed tokens with single spaces is
whitespace-equivalent to the stripped response, splitting the joined
string returns exactly the same tokens (none dropped or duplicated),
and no token is empty. -/
theorem claim8_round_trip (s : String) :
    wsEquivalent (joinTokens (pySplit s)) (pyStrip s)
    ∧ pySplit (joinTokens (pySplit s)) = pySplit s
    ∧ ∀ t ∈ pySplit s, t ≠ "" := by
  refine ⟨?_, pySplit_joinTokens s, pySplit_tokens_nonempty s⟩
  show pySplit (joinTokens (pySplit s)) = pySplit (pyStrip s)
  rw [pySplit_pyStrip, pySplit_joinTokens]

/-- C9: a zero-length conversation passes the empty-prompt check (its
prompt is empty but its length is not greater than one) and then raises
`IndexError` at `messages[-1]`; the exception is not caught, so a file
holding `[[]]` aborts the whole run without touching `error_count`. -/
theorem claim9_empty_conversation_aborts :
    generate_full_prompt (Json.arr []) = .ok ""
    ∧ process_messages (Json.arr []) = .error (.indexError "list index out of range")
    ∧ ∀ (st : ConvState) (rest : List SrcFile),
        convertLoop st (fileNestedEmpty :: rest) =
          ⟨st.staged, st.processed_count, st.error_count,
           st.trace ++ [.openFile fileNestedEmpty.name],
           some (.indexError "list index out of range")⟩ :=
  ⟨rfl, rfl, fun st rest => convertLoop_step_raise st fileNestedEmpty rest _ rfl⟩

/-- C10: the prompt hash ignores the final message — two conversations
differing only in their last message hash identically, and a length-1
conversation's hash is always the SHA-256 digest of the empty string. -/
theorem claim10_hash_ignores_last (msgs : List Message) (m1 m2 : Message) :
    (generate_full_prompt (encodeConv (msgs ++ [m1]))).map get_prompt_hash
      = (generate_full_prompt (encodeConv (msgs ++ [m2]))).map get_prompt_hash
    ∧ ∀ m : Message, ∃ r : Row,
        process_messages (encodeConv [m]) = .ok (some r)
        ∧ r.prompt_hash = get_prompt_hash "" := by
  constructor
  · rw [gen_encode, gen_encode, List.dropLast_concat, List.dropLast_concat]
  · intro m
    exact ⟨_, singleton_processed m, rfl⟩

/-- C2 counterexample: a directory holding a good file followed by a
`.txt` file.  The claim says the unsupported file increments
`error_count` once, the run continues, and rows from other files are
committed; the code instead lets the exception escape: the run aborts
with `error_count` still 0 and nothing is ever committed. -/
theorem claim2_counterexample :
    (convert_conversations_to_sqlite "data" "out.db" true [fileGood, fileTxt]).aborted
        = some (.exception "Unsupported file format: .txt")
    ∧ (convert_conversations_to_sqlite "data" "out.db" true [fileGood, fileTxt]).error_count = 0
    ∧ Effect.commit ∉ (convert_conversations_to_sqlite "data" "out.db" true [fileGood, fileTxt]).trace
    ∧ (convert_conversations_to_sqlite "data" "out.db" true [fileGood, fileTxt]).staged
        = [rowGood] :=
  ⟨rfl, rfl, by decide, rfl⟩

/-- C2 as amended: a file that loads but yields zero conversations (a
scalar/null document, or an empty list of conversations) increments
`error_count` exactly once and processing continues with the remaining
files; but a file with an unsupported suffix or malformed content
raises an uncaught exception that immediately aborts the run (no
`error_count` increment, no commit of staged rows). -/
theorem claim2_amended_behavior :
    (∀ (st : ConvState) (f : SrcFile) (rest : List SrcFile),
        process_conversation_file f = .ok none →
        convertLoop st (f :: rest) =
          convertLoop ⟨st.staged, st.processed_count, st.error_count + 1,
                       st.trace ++ [.openFile f.name]⟩ rest)
    ∧ (∀ (st : ConvState) (f : SrcFile) (rest : List SrcFile),
        process_conversation_file f = .ok (some []) →
        convertLoop st (f :: rest) =
          convertLoop ⟨st.staged, st.processed_count, st.error_count + 1,
                       st.trace ++ [.openFile f.name]⟩ rest)
    ∧ (∀ (st : ConvState) (f : SrcFile) (rest : List SrcFile) (e : PyErr),
        process_conversation_file f = .error e →
        convertLoop st (f :: rest) =
          ⟨st.staged, st.processed_count, st.error_count,
           st.trace ++ [.openFile f.name], some e⟩) :=
  ⟨convertLoop_step_none, convertLoop_step_empty_list, convertLoop_step_raise⟩

/-- Witness for C2's amended theorem at concrete inputs: a scalar
document file counts one error and continues; a `.txt` file aborts. -/
theorem claim2_witness :
    convertLoop ⟨[], 0, 0, []⟩ [fileScalar] =
      convertLoop ⟨[], 0, 0 + 1, [] ++ [.openFile fileScalar.name]⟩ []
    ∧ convertLoop ⟨[], 0, 0, []⟩ [fileTxt] =
      ⟨[], 0, 0, [] ++ [.openFile fileTxt.name],
       some (.exception "Unsupported file format: .txt")⟩ :=
  ⟨claim2_amended_behavior.1 ⟨[], 0, 0, []⟩ fileScalar [] rfl,
   claim2_amended_behavior.2.2 ⟨[], 0, 0, []⟩ fileTxt []
     (.exception "Unsupported file format: .txt") rfl⟩

/-- The first row of `fileThree` (staged before the signal). -/
def rowThree1 : Row := ⟨get_prompt_hash "### user:\nhi\n", ["ok"], 1⟩

/-- The third row of `fileThree` (never staged). -/
def rowThree3 : Row := ⟨get_prompt_hash "### user:\na\n", ["b", "c"], 2⟩

/-- C3 counterexample: one file with three conversations whose middle
conversation trips the empty-prompt check.  The claim says the two good
conversations are both staged; the code stages only the first — the
`None` blows up inside the staging loop's `try`, ending the loop for
that file — so only one row is staged and one conversation processed. -/
theorem claim3_counterexample :
    (convert_conversations_to_sqlite "data" "out.db" true [fileThree]).processed_count = 1
    ∧ (convert_conversations_to_sqlite "data" "out.db" true [fileThree]).error_count = 1
    ∧ (convert_conversations_to_sqlite "data" "out.db" true [fileThree]).staged = [rowThree1]
    ∧ (convert_conversations_to_sqlite "data" "out.db" true [fileThree]).aborted = none :=
  ⟨rfl, rfl, rfl, rfl⟩

/-- C3 as amended: an `EmptyPromptSignal` for one Conversation of a file
increments `error_count` exactly once, keeps the rows already staged for
the file's earlier Conversations, skips all of the file's remaining
Conversations (their rows are not staged and they are not counted), and
continues with the next file. -/
theorem claim3_amended_behavior (rs1 : List Row) (rs2 : List (Option Row)) (st : ConvState)
    (f : SrcFile) (rest : List SrcFile)
    (h : process_conversation_file f = .ok (some (rs1.map some ++ none :: rs2))) :
    convertLoop st (f :: rest) =
      convertLoop ⟨st.staged ++ rs1, st.processed_count + rs1.length, st.error_count + 1,
                   st.trace ++ [.openFile f.name]⟩ rest :=
  convertLoop_step_signal rs1 rs2 st f rest h

/-- Witness for C3's amended theorem at `fileThree`. -/
theorem claim3_witness :
    convertLoop ⟨[], 0, 0, []⟩ [fileThree] =
      convertLoop ⟨[] ++ [rowThree1], 0 + [rowThree1].length, 0 + 1,
                   [] ++ [.openFile fileThree.name]⟩ [] :=
  claim3_amended_behavior [rowThree1] [some rowThree3] ⟨[], 0, 0, []⟩ fileThree [] rfl

/-- C6: `process_messages` returns the empty-prompt signal (`None`) iff
the derived prompt is empty or whitespace-only and the conversation has
more than one message; in particular a length-1 conversation is always
processed, its prompt is empty, and its prompt hash (of the empty
string) is still computed. -/
theorem claim6_empty_prompt_signal (msgs : List Message) (h : msgs ≠ []) :
    ((process_messages (encodeConv msgs) = .ok none) ↔
      ((∀ c ∈ (concatSegments msgs.dropLast).data, isPySpace c = true)
        ∧ msgs.length > 1))
    ∧ (msgs.length = 1 →
        generate_full_prompt (encodeConv msgs) = .ok ""
        ∧ ∃ r : Row, process_messages (encodeConv msgs) = .ok (some r)
            ∧ r.prompt_hash = get_prompt_hash "") := by
  constructor
  · rw [processMessages_encode msgs h]
    by_cases hc : pyStrip (concatSegments msgs.dropLast) = "" ∧ msgs.length > 1
    · rw [if_pos hc]
      constructor
      · intro _
        exact ⟨(pyStrip_eq_empty_iff _).mp hc.1, hc.2⟩
      · intro _
        rfl
    · rw [if_neg hc]
      constructor
      · intro hx
        exact absurd hx (by simp)
      · intro hx
        exact absurd ⟨(pyStrip_eq_empty_iff _).mpr hx.1, hx.2⟩ hc
  · intro h1
    obtain ⟨m, rfl⟩ := List.length_eq_one.mp h1
    refine ⟨gen_encode [m], ⟨_, singleton_processed m, rfl⟩⟩

/-- Witness for C6 at the two-message conversation of Scenario 4. -/
theorem claim6_witness :
    ((process_messages (encodeConv [⟨"system", "x"⟩, ⟨"assistant", "y"⟩]) = .ok none) ↔
      ((∀ c ∈ (concatSegments ([⟨"system", "x"⟩, ⟨"assistant", "y"⟩] : List Message).dropLast).data,
          isPySpace c = true)
        ∧ ([⟨"system", "x"⟩, ⟨"assistant", "y"⟩] : List Message).length > 1))
    ∧ (([⟨"system", "x"⟩, ⟨"assistant", "y"⟩] : List Message).length = 1 →
        generate_full_prompt (encodeConv [⟨"system", "x"⟩, ⟨"assistant", "y"⟩]) = .ok ""
        ∧ ∃ r : Row,
            process_messages (encodeConv [⟨"system", "x"⟩, ⟨"assistant", "y"⟩]) = .ok (some r)
            ∧ r.prompt_hash = get_prompt_hash "") :=
  claim6_empty_prompt_signal [⟨"system", "x"⟩, ⟨"assistant", "y"⟩] (by simp)

/-- C7: every row a conversation yields carries `gen_tokens` equal to the
whitespace-split of the response (the last message's content when its
role is `assistant`, else empty), with no empty fragments, and
`n_gen_tokens` equal to the number of tokens. -/
theorem claim7_response_tokens (msgs : List Message) (h : msgs ≠ []) (r : Row)
    (hr : process_messages (encodeConv msgs) = .ok (some r)) :
    r.gen_tokens = pySplit (specResponse msgs)
    ∧ r.n_gen_tokens = r.gen_tokens.length
    ∧ ∀ t ∈ r.gen_tokens, t ≠ "" := by
  rw [processMessages_encode msgs h] at hr
  by_cases hc : pyStrip (concatSegments msgs.dropLast) = "" ∧ msgs.length > 1
  · rw [if_pos hc] at hr
    exact absurd hr (by simp)
  · rw [if_neg hc] at hr
    simp only [Except.ok.injEq, Option.some.injEq] at hr
    subst hr
    exact ⟨rfl, rfl, pySplit_tokens_nonempty _⟩

/-- Witness for C7 at Scenario 1's conversation. -/
theorem claim7_witness :
    (⟨get_prompt_hash "### user:\nhi\n", ["hello", "world"], 2⟩ : Row).gen_tokens
        = pySplit (specResponse [⟨"user", "hi"⟩, ⟨"assistant", "hello world"⟩])
    ∧ (⟨get_prompt_hash "### user:\nhi\n", ["hello", "world"], 2⟩ : Row).n_gen_tokens
        = (⟨get_prompt_hash "### user:\nhi\n", ["hello", "world"], 2⟩ : Row).gen_tokens.length
    ∧ ∀ t ∈ (⟨get_prompt_hash "### user:\nhi\n", ["hello", "world"], 2⟩ : Row).gen_tokens,
        t ≠ "" :=
  claim7_response_tokens [⟨"user", "hi"⟩, ⟨"assistant", "hello world"⟩] (by simp)
    ⟨get_prompt_hash "### user:\nhi\n", ["hello", "world"], 2⟩ rfl
